import Mathlib

/-!
# Cloud billing model (`model/cloud.go`)

A shallow embedding of the behavioural part of `model/cloud.go`:

* `NotifyAdminData.IsValid` and `NotifyAdminData.PreSave`,
* `Subscription.GetWorkSpaceNameFromDNS`,
* the JSON shape that the struct tags of `BoardsLimits`, `ProductLimits` and
  `CloudCustomer` give to `encoding/json`, written and read back.

The strings of the validation record and the DNS name are Lean `String`s
(sequences of characters; the separators and verbs the source uses are ASCII).
The strings of the structs that are written as JSON are sequences of bytes,
as `encoding/json` reads them.  Methods with a pointer receiver return the
receiver after the call next to their result.  The library functions the
source calls (`strings.Split`, `fmt.Sprintf`, the `json` tag handling of
`encoding/json`) are written after their Go implementation.  JSON is the tree
of values that is written and read, not its text.
-/

set_option autoImplicit false

namespace Model

/-! ## Go library functions used by the source -/

/-- Go's `http.StatusBadRequest`. -/
def StatusBadRequest : Nat := 400

/-- Worker of `Sprintf` on the characters of the format: the verb `%s` is
replaced by the next operand, `%!s(MISSING)` when the operands ran out; every
other character is copied. -/
def sprintfChars : List Char → List String → List Char
  | [], _ => []
  | '%' :: 's' :: rest, a :: args => a.data ++ sprintfChars rest args
  | '%' :: 's' :: rest, [] => "%!s(MISSING)".data ++ sprintfChars rest []
  | c :: rest, args => c :: sprintfChars rest args

/-- Go's `fmt.Sprintf` for formats whose only verb is `%s`, with string
operands (the two calls of the source have this shape). -/
def Sprintf (format : String) (args : List String) : String :=
  ⟨sprintfChars format.data args⟩

/-- A Go `map[string]interface{}`: its entries in source order; the values of
both maps of the source are all `nil`, written `()`. -/
abbrev GoMap := List (String × Unit)

/-- The two-value index expression `_, ok := m[k]` of Go: `ok`. -/
def GoMap.ok (m : GoMap) (k : String) : Bool :=
  (m.lookup k).isSome

/-! ## `AppError` -/

/-- Modelled from the spec: `AppError` is declared outside `cloud.go`; the spec
describes the error as carrying a message that names the offending value and
an HTTP status.  The record keeps the five arguments of `NewAppError`. -/
structure AppError where
  Where : String
  Message : String
  Params : Option (List (String × String))
  DetailedError : String
  StatusCode : Nat
  deriving DecidableEq, Repr

/-- Modelled from the spec: `NewAppError` is declared outside `cloud.go`; it
builds the error from its arguments, in the order of the call sites:
where, message, params, details, status. -/
def NewAppError (wh : String) (message : String) (params : Option (List (String × String)))
    (details : String) (status : Nat) : AppError :=
  { Where := wh, Message := message, Params := params, DetailedError := details,
    StatusCode := status }

/-! ## Admin notification record -/

/-- The map `validCloudSKUs` of the source. -/
def validCloudSKUs : GoMap :=
  [ ("cloud-starter", ()),
    ("cloud-professional", ()),
    ("cloud-enterprise", ()) ]

/-- The map `nonAdminPaidFeatures` of the source. -/
def nonAdminPaidFeatures : GoMap :=
  [ ("Guest Accounts", ()),
    ("Custom User groups", ()),
    ("Create Multiple Teams", ()),
    ("Start call", ()),
    ("Playbooks Retrospective", ()),
    ("Unlimited Messages", ()),
    ("Unlimited File Storage", ()),
    ("Unlimited Integrations", ()),
    ("Unlimited Board cards", ()),
    ("All Professional features", ()) ]

/-- The struct `NotifyAdminData`; `CreateAt` is an `int64` that is only ever
copied, so it is an `Int`. -/
structure NotifyAdminData where
  Id : String
  CreateAt : Int
  UserId : String
  RequiredPlan : String
  RequiredFeature : String
  Trial : Bool
  deriving DecidableEq, Repr

/-- The method `(nad *NotifyAdminData) IsValid() *AppError`: the returned
pointer (`none` is `nil`) and the receiver after the call.  The body assigns to
no field. -/
def NotifyAdminData.IsValid (nad : NotifyAdminData) : Option AppError × NotifyAdminData :=
  if !(validCloudSKUs.ok nad.RequiredPlan) then
    (some (NewAppError "NotifyAdmin.IsValid"
      (Sprintf "Invalid plan, %s provided" [nad.RequiredPlan]) none "" StatusBadRequest), nad)
  else if !(nonAdminPaidFeatures.ok nad.RequiredFeature) then
    (some (NewAppError "NotifyAdmin.IsValid"
      (Sprintf "Invalid feature, %s provided" [nad.RequiredFeature]) none "" StatusBadRequest), nad)
  else
    (none, nad)

/-- Modelled from the spec: `NewId` and `GetMillis` are declared outside
`cloud.go`; the spec treats them as an opaque identity provider and an opaque
millisecond clock.  The state of the two providers is the sequence of answers
each will give and the number of calls made so far. -/
structure Providers where
  ids : Nat → String
  idCalls : Nat
  clock : Nat → Int
  clockCalls : Nat

/-- Modelled from the spec: the identity provider `NewId()`, which hands out
the next identifier. -/
def NewId (w : Providers) : String × Providers :=
  (w.ids w.idCalls, { w with idCalls := w.idCalls + 1 })

/-- Modelled from the spec: the clock provider `GetMillis()`, which hands out
the next reading. -/
def GetMillis (w : Providers) : Int × Providers :=
  (w.clock w.clockCalls, { w with clockCalls := w.clockCalls + 1 })

/-- The method `(nad *NotifyAdminData) PreSave()`: the receiver and the
providers after the call. -/
def NotifyAdminData.PreSave (nad : NotifyAdminData) (w : Providers) :
    NotifyAdminData × Providers :=
  let s1 : NotifyAdminData × Providers :=
    if nad.Id == "" then
      ({ nad with Id := (NewId w).1 }, (NewId w).2)
    else
      (nad, w)
  ({ s1.1 with CreateAt := (GetMillis s1.2).1 }, (GetMillis s1.2).2)

/-! ## `strings.Split` -/

/-- Go's `strings.Index` on characters: the position of the first occurrence
of `sep` in the string, `none` for Go's `-1`. -/
def indexChars (sep : List Char) : List Char → Option Nat
  | [] => if sep.isEmpty then some 0 else none
  | c :: t => if sep.isPrefixOf (c :: t) then some 0 else (indexChars sep t).map (· + 1)

/-- The general loop of Go's `strings.Count`: find the next occurrence, step
over it, count one.  The fuel is the length of the string: every round drops at
least one character. -/
def countLoop (sep : List Char) : Nat → List Char → Nat
  | 0, _ => 0
  | fuel + 1, s =>
    match indexChars sep s with
    | none => 0
    | some i => countLoop sep fuel (s.drop (i + sep.length)) + 1

/-- Go's `strings.Count`: one more than the number of characters for the empty
separator, the number of occurrences of the character for a separator of one
character, the general loop otherwise. -/
def countChars (s : List Char) (sep : List Char) : Nat :=
  match sep with
  | [] => s.length + 1
  | [c] => s.count c
  | _ => countLoop sep s.length s

/-- Go's `len(s)`: the number of bytes of the string. -/
def byteLen (s : List Char) : Nat :=
  String.utf8ByteSize ⟨s⟩

/-- Go's `explode(s, n)` of package `strings` for `n < 0`: one string for each
character. -/
def explode (s : List Char) : List (List Char) :=
  s.map fun c => [c]

/-- The loop of Go's `genSplit`: `k` is `n - i`, the number of separators still
to be cut at; the last entry is the rest of the string. -/
def genSplitLoop (sep : List Char) (sepSave : Nat) : Nat → List Char → List (List Char)
  | 0, s => [s]
  | k + 1, s =>
    match indexChars sep s with
    | none => [s]
    | some m => s.take (m + sepSave) :: genSplitLoop sep sepSave k (s.drop (m + sep.length))

/-- Go's `genSplit(s, sep, sepSave, n)` of package `strings`, for `n ≤ 0` or a
separator that is not empty. -/
def genSplit (s sep : List Char) (sepSave : Nat) (n : Int) : List (List Char) :=
  if n = 0 then []
  else if sep = [] then explode s
  else
    let n1 : Nat := if n < 0 then countChars s sep + 1 else n.toNat
    let n2 : Nat := if n1 > byteLen s + 1 then byteLen s + 1 else n1
    genSplitLoop sep sepSave (n2 - 1) s

/-- Go's `strings.Split(s, sep)`, which is `genSplit(s, sep, 0, -1)`. -/
def Split (s sep : String) : List String :=
  (genSplit s.data sep.data 0 (-1)).map String.mk

/-! ## Subscription -/

/-- The struct `Subscription`, without `LastInvoice`; the `int64` and `int`
fields are only stored. -/
structure Subscription where
  ID : String
  CustomerID : String
  ProductID : String
  AddOns : List String
  StartAt : Int
  EndAt : Int
  CreateAt : Int
  Seats : Int
  Status : String
  DNS : String
  IsPaidTier : String
  IsFreeTrial : String
  TrialEndAt : Int
  deriving DecidableEq, Repr

/-- The method `(s *Subscription) GetWorkSpaceNameFromDNS() string`; `none` is
the panic of the index expression `[0]` on an empty slice. -/
def Subscription.GetWorkSpaceNameFromDNS (s : Subscription) : Option String :=
  (Split s.DNS ".")[0]?

/-- A subscription that has the given DNS name and zero values elsewhere. -/
def Subscription.ofDNS (dns : String) : Subscription :=
  { ID := "", CustomerID := "", ProductID := "", AddOns := [], StartAt := 0, EndAt := 0,
    CreateAt := 0, Seats := 0, Status := "", DNS := dns, IsPaidTier := "", IsFreeTrial := "",
    TrialEndAt := 0 }

/-! ## Go strings as bytes, and UTF-8 -/

/-- A Go string as `encoding/json` reads it: a sequence of bytes, each a number
below 256. -/
abbrev GoString := List Nat

/-- Go's `utf8.RuneError`, the replacement character U+FFFD. -/
def RuneError : Char := Char.ofNat 0xFFFD

/-- Whether a byte is a continuation byte, `0x80` to `0xBF`. -/
def isCont (b : Nat) : Bool := 0x80 ≤ b && b ≤ 0xBF

/-- The range Go's `acceptRanges` allows for the second byte after the first
byte `b0` of a sequence of three or four bytes. -/
def acceptSecond (b0 b1 : Nat) : Bool :=
  if b0 = 0xE0 then 0xA0 ≤ b1 && b1 ≤ 0xBF
  else if b0 = 0xED then 0x80 ≤ b1 && b1 ≤ 0x9F
  else if b0 = 0xF0 then 0x90 ≤ b1 && b1 ≤ 0xBF
  else if b0 = 0xF4 then 0x80 ≤ b1 && b1 ≤ 0x8F
  else isCont b1

/-- Go's `utf8.DecodeRuneInString`: the first rune of the string and its width
in bytes; `(RuneError, 0)` for the empty string and `(RuneError, 1)` when the
string does not start with a valid encoding.  The masks `& 0x1F`, `& 0x0F`,
`& 0x07` and `& 0x3F` are the remainders by 32, 16, 8 and 64. -/
def DecodeRune : GoString → Char × Nat
  | [] => (RuneError, 0)
  | b0 :: rest =>
    if b0 < 0x80 then (Char.ofNat b0, 1)
    else if 0xC2 ≤ b0 ∧ b0 ≤ 0xDF then
      match rest with
      | b1 :: _ =>
        if isCont b1 then (Char.ofNat (b0 % 32 * 64 + b1 % 64), 2) else (RuneError, 1)
      | _ => (RuneError, 1)
    else if 0xE0 ≤ b0 ∧ b0 ≤ 0xEF then
      match rest with
      | b1 :: b2 :: _ =>
        if acceptSecond b0 b1 && isCont b2 then
          (Char.ofNat (b0 % 16 * 4096 + b1 % 64 * 64 + b2 % 64), 3)
        else (RuneError, 1)
      | _ => (RuneError, 1)
    else if 0xF0 ≤ b0 ∧ b0 ≤ 0xF4 then
      match rest with
      | b1 :: b2 :: b3 :: _ =>
        if acceptSecond b0 b1 && isCont b2 && isCont b3 then
          (Char.ofNat (b0 % 8 * 262144 + b1 % 64 * 4096 + b2 % 64 * 64 + b3 % 64), 4)
        else (RuneError, 1)
      | _ => (RuneError, 1)
    else (RuneError, 1)

/-- Go's `utf8.AppendRune` on a valid rune: its encoding in one to four bytes. -/
def EncodeRune (c : Char) : GoString :=
  if c.toNat ≤ 0x7F then [c.toNat]
  else if c.toNat ≤ 0x7FF then [0xC0 + c.toNat / 64, 0x80 + c.toNat % 64]
  else if c.toNat ≤ 0xFFFF then
    [0xE0 + c.toNat / 4096, 0x80 + c.toNat / 64 % 64, 0x80 + c.toNat % 64]
  else
    [0xF0 + c.toNat / 262144, 0x80 + c.toNat / 4096 % 64, 0x80 + c.toNat / 64 % 64,
      0x80 + c.toNat % 64]

/-- The loop of the string encoder of `encoding/json`, on the level of the
characters the JSON string holds: rune after rune, a byte that starts no valid
encoding is one U+FFFD.  The fuel is the number of bytes: every round consumes
at least one. -/
def textLoop : Nat → GoString → List Char
  | 0, _ => []
  | _ + 1, [] => []
  | fuel + 1, b :: rest =>
    (DecodeRune (b :: rest)).1 :: textLoop fuel ((b :: rest).drop (DecodeRune (b :: rest)).2)

/-- The text of the JSON string that `encoding/json` writes for a Go string. -/
def toText (s : GoString) : String :=
  ⟨textLoop s.length s⟩

/-- The Go string that `encoding/json` stores for a JSON string: the UTF-8
encoding of its text. -/
def ofText (s : String) : GoString :=
  (s.data.map EncodeRune).flatten

/-- A Go string is valid UTF-8 when it is the UTF-8 encoding of a text. -/
def IsUTF8 (s : GoString) : Prop :=
  ∃ t : String, ofText t = s

/-! ## JSON encoding driven by the struct tags -/

/-- A JSON value, as `encoding/json` writes it. -/
inductive JSON where
  | null
  | bool (b : Bool)
  | num (n : Int)
  | str (s : String)
  | arr (items : List JSON)
  | obj (members : List (String × JSON))

/-- The keys of a JSON object, in the order written. -/
def JSON.keys : JSON → List String
  | .obj ms => ms.map Prod.fst
  | _ => []

/-- Whether a JSON object has the key. -/
def JSON.hasKey (j : JSON) (k : String) : Bool :=
  j.keys.contains k

/-- The value written under a key of a JSON object. -/
def JSON.get? : JSON → String → Option JSON
  | .obj ms, k => ms.lookup k
  | _, _ => none

/-- What `encoding/json` reads from one struct field: the text of the `json`
key of its tag, whether the value is empty in the sense of Go's `isEmptyValue`
(nil pointer, empty string, zero number, false), and the encoded value. -/
structure Field where
  tag : String
  empty : Bool
  value : JSON

/-- Go's `parseTag` of `encoding/json`: the name before the first comma and the
comma-separated options after it. -/
def parseTag (tag : String) : String × List String :=
  match Split tag "," with
  | [] => (tag, [])
  | name :: opts => (name, opts)

/-- Whether the tag carries the option `omitempty`. -/
def omitEmpty (tag : String) : Bool :=
  (parseTag tag).2.contains "omitempty"

/-- The members `encoding/json` writes for the fields of a struct, in field
order: a field is left out only when its tag says `omitempty` and its value is
empty.  (No tag of the source is `-` or has an empty name.) -/
def encodeFields (fs : List Field) : List (String × JSON) :=
  fs.filterMap fun f =>
    if omitEmpty f.tag && f.empty then none else some ((parseTag f.tag).1, f.value)

/-- A field of Go type `string`: empty when it has no byte; written as the JSON
string whose text the encoder reads from the bytes. -/
def Field.ofString (tag : String) (v : GoString) : Field :=
  { tag := tag, empty := decide (v = []), value := .str (toText v) }

/-- A field of Go type `int` or `int64`. -/
def Field.ofInt (tag : String) (v : Int) : Field :=
  { tag := tag, empty := decide (v = 0), value := .num v }

/-- A field of a Go pointer type: `nil` is written `null`. -/
def Field.ofPtr {α : Type} (tag : String) (enc : α → JSON) (v : Option α) : Field :=
  { tag := tag, empty := v.isNone, value := match v with | none => .null | some x => enc x }

/-- The struct `CloudCustomerInfo`. -/
structure CloudCustomerInfo where
  Name : GoString
  Email : GoString
  ContactFirstName : GoString
  ContactLastName : GoString
  NumEmployees : Int
  deriving DecidableEq, Repr

/-- The struct `Address`. -/
structure Address where
  City : GoString
  Country : GoString
  Line1 : GoString
  Line2 : GoString
  PostalCode : GoString
  State : GoString
  deriving DecidableEq, Repr

/-- The struct `PaymentMethod`; its field `Type` is `Type_` here. -/
structure PaymentMethod where
  Type_ : GoString
  LastFour : GoString
  ExpMonth : Int
  ExpYear : Int
  CardBrand : GoString
  Name : GoString
  deriving DecidableEq, Repr

/-- The struct `CloudCustomer`; the embedded `CloudCustomerInfo` is the field
`toCloudCustomerInfo`. -/
structure CloudCustomer extends CloudCustomerInfo where
  ID : GoString
  CreatorID : GoString
  CreateAt : Int
  BillingAddress : Option Address
  CompanyAddress : Option Address
  PaymentMethod : Option PaymentMethod
  deriving DecidableEq, Repr

/-- The struct `BoardsLimits`. -/
structure BoardsLimits where
  Cards : Option Int
  Views : Option Int
  deriving DecidableEq, Repr

/-- The fields of `CloudCustomerInfo` with their tags. -/
def CloudCustomerInfo.fields (c : CloudCustomerInfo) : List Field :=
  [ Field.ofString "name" c.Name,
    Field.ofString "email,omitempty" c.Email,
    Field.ofString "contact_first_name,omitempty" c.ContactFirstName,
    Field.ofString "contact_last_name,omitempty" c.ContactLastName,
    Field.ofInt "num_employees" c.NumEmployees ]

/-- JSON encoding of an `Address`. -/
def Address.Marshal (a : Address) : JSON :=
  .obj (encodeFields
    [ Field.ofString "city" a.City,
      Field.ofString "country" a.Country,
      Field.ofString "line1" a.Line1,
      Field.ofString "line2" a.Line2,
      Field.ofString "postal_code" a.PostalCode,
      Field.ofString "state" a.State ])

/-- JSON encoding of a `PaymentMethod`. -/
def PaymentMethod.Marshal (p : PaymentMethod) : JSON :=
  .obj (encodeFields
    [ Field.ofString "type" p.Type_,
      Field.ofString "last_four" p.LastFour,
      Field.ofInt "exp_month" p.ExpMonth,
      Field.ofInt "exp_year" p.ExpYear,
      Field.ofString "card_brand" p.CardBrand,
      Field.ofString "name" p.Name ])

/-- JSON encoding of a `CloudCustomer`: the fields of the embedded struct are
written into the same object, at the place of the embedding. -/
def CloudCustomer.Marshal (c : CloudCustomer) : JSON :=
  .obj (encodeFields
    (c.toCloudCustomerInfo.fields ++
      [ Field.ofString "id" c.ID,
        Field.ofString "creator_id" c.CreatorID,
        Field.ofInt "create_at" c.CreateAt,
        Field.ofPtr "billing_address" Address.Marshal c.BillingAddress,
        Field.ofPtr "company_address" Address.Marshal c.CompanyAddress,
        Field.ofPtr "payment_method" PaymentMethod.Marshal c.PaymentMethod ]))

/-- JSON encoding of a `BoardsLimits`. -/
def BoardsLimits.Marshal (b : BoardsLimits) : JSON :=
  .obj (encodeFields
    [ Field.ofPtr "cards" JSON.num b.Cards,
      Field.ofPtr "views" JSON.num b.Views ])

/-! ## Product limits -/

/-- The struct `FilesLimits`. -/
structure FilesLimits where
  TotalStorage : Option Int
  deriving DecidableEq, Repr

/-- The struct `IntegrationsLimits`. -/
structure IntegrationsLimits where
  Enabled : Option Int
  deriving DecidableEq, Repr

/-- The struct `MessagesLimits`. -/
structure MessagesLimits where
  History : Option Int
  deriving DecidableEq, Repr

/-- The struct `TeamsLimits`. -/
structure TeamsLimits where
  Active : Option Int
  deriving DecidableEq, Repr

/-- The struct `ProductLimits`. -/
structure ProductLimits where
  Boards : Option BoardsLimits
  Files : Option FilesLimits
  Integrations : Option IntegrationsLimits
  Messages : Option MessagesLimits
  Teams : Option TeamsLimits
  deriving DecidableEq, Repr

/-- JSON encoding of a `FilesLimits`. -/
def FilesLimits.Marshal (l : FilesLimits) : JSON :=
  .obj (encodeFields [ Field.ofPtr "total_storage" JSON.num l.TotalStorage ])

/-- JSON encoding of an `IntegrationsLimits`. -/
def IntegrationsLimits.Marshal (l : IntegrationsLimits) : JSON :=
  .obj (encodeFields [ Field.ofPtr "enabled" JSON.num l.Enabled ])

/-- JSON encoding of a `MessagesLimits`. -/
def MessagesLimits.Marshal (l : MessagesLimits) : JSON :=
  .obj (encodeFields [ Field.ofPtr "history" JSON.num l.History ])

/-- JSON encoding of a `TeamsLimits`. -/
def TeamsLimits.Marshal (l : TeamsLimits) : JSON :=
  .obj (encodeFields [ Field.ofPtr "active" JSON.num l.Active ])

/-- JSON encoding of a `ProductLimits`. -/
def ProductLimits.Marshal (p : ProductLimits) : JSON :=
  .obj (encodeFields
    [ Field.ofPtr "boards,omitempty" BoardsLimits.Marshal p.Boards,
      Field.ofPtr "files,omitempty" FilesLimits.Marshal p.Files,
      Field.ofPtr "integrations,omitempty" IntegrationsLimits.Marshal p.Integrations,
      Field.ofPtr "messages,omitempty" MessagesLimits.Marshal p.Messages,
      Field.ofPtr "teams,omitempty" TeamsLimits.Marshal p.Teams ])

/-! ## JSON decoding driven by the struct tags -/

/-- What `encoding/json` does with one struct field when it reads an object
member: the text of the `json` key of the field's tag, and the decoding of the
member's value into that field of the struct (`none` is a decoding error). -/
structure Setter (T : Type) where
  tag : String
  set : JSON → T → Option T

/-- Case folding of one character of a key, as `encoding/json` compares keys
with ASCII field names: upper and lower case letters are the same, and so are
the Kelvin sign and `k`, the long s and `s`. -/
def foldChar (c : Char) : Char :=
  if c = Char.ofNat 0x212A then 'k' else if c = Char.ofNat 0x17F then 's' else c.toLower

/-- A key with every character folded. -/
def foldKey (s : String) : List Char :=
  s.data.map foldChar

/-- The field an object key selects: the field whose name is the key, and
failing that the first field whose name equals the key up to case. -/
def findSetter {T : Type} (ss : List (Setter T)) (key : String) : Option (Setter T) :=
  match ss.find? (fun s => (parseTag s.tag).1 == key) with
  | some s => some s
  | none => ss.find? (fun s => foldKey (parseTag s.tag).1 == foldKey key)

/-- Decoding of the members of a JSON object into a struct, in the order
written: a key that selects no field is skipped, a value that does not fit its
field is an error. -/
def decodeMembers {T : Type} (ss : List (Setter T)) : List (String × JSON) → T → Option T
  | [], t => some t
  | (k, v) :: ms, t =>
    match findSetter ss k with
    | none => decodeMembers ss ms t
    | some s =>
      match s.set v t with
      | none => none
      | some t1 => decodeMembers ss ms t1

/-- Decoding into a Go `string`: the UTF-8 encoding of a JSON string is
stored, `null` leaves the field as it is, anything else is an error. -/
def decString : JSON → GoString → Option GoString
  | .str s, _ => some (ofText s)
  | .null, cur => some cur
  | _, _ => none

/-- The values of Go's `int64` (and of `int` on a 64-bit platform). -/
def IsInt64 (n : Int) : Prop :=
  -9223372036854775808 ≤ n ∧ n ≤ 9223372036854775807

instance IsInt64.decidable (n : Int) : Decidable (IsInt64 n) :=
  inferInstanceAs (Decidable (-9223372036854775808 ≤ n ∧ n ≤ 9223372036854775807))

/-- Decoding into a Go `int` or `int64`: a JSON number within the range of the
type is stored and one outside it is an error, `null` leaves the field as it
is, anything else is an error. -/
def decInt : JSON → Int → Option Int
  | .num n, _ => if IsInt64 n then some n else none
  | .null, cur => some cur
  | _, _ => none

/-- Decoding into a Go struct: the members of a JSON object are decoded into
the fields, `null` leaves the struct as it is, anything else is an error. -/
def decStruct {T : Type} (ss : List (Setter T)) : JSON → T → Option T
  | .obj ms, t => decodeMembers ss ms t
  | .null, t => some t
  | _, _ => none

/-- Decoding into a Go pointer: `null` sets the pointer to nil; another value
is decoded into the pointee, a new zero value when the pointer was nil. -/
def decPtr {α : Type} (dec : JSON → α → Option α) (zero : α) : JSON → Option α → Option (Option α)
  | .null, _ => some none
  | j, none => (dec j zero).map some
  | j, some x => (dec j x).map some

/-- The zero value of `Address`. -/
def Address.zero : Address :=
  { City := [], Country := [], Line1 := [], Line2 := [], PostalCode := [], State := [] }

/-- The zero value of `PaymentMethod`. -/
def PaymentMethod.zero : PaymentMethod :=
  { Type_ := [], LastFour := [], ExpMonth := 0, ExpYear := 0, CardBrand := [], Name := [] }

/-- The zero value of `CloudCustomer`. -/
def CloudCustomer.zero : CloudCustomer :=
  { Name := [], Email := [], ContactFirstName := [], ContactLastName := [], NumEmployees := 0,
    ID := [], CreatorID := [], CreateAt := 0, BillingAddress := none, CompanyAddress := none,
    PaymentMethod := none }

/-- The fields of `Address` with their tags, for decoding. -/
def Address.setters : List (Setter Address) :=
  [ ⟨"city", fun j a => (decString j a.City).map fun v => { a with City := v }⟩,
    ⟨"country", fun j a => (decString j a.Country).map fun v => { a with Country := v }⟩,
    ⟨"line1", fun j a => (decString j a.Line1).map fun v => { a with Line1 := v }⟩,
    ⟨"line2", fun j a => (decString j a.Line2).map fun v => { a with Line2 := v }⟩,
    ⟨"postal_code", fun j a => (decString j a.PostalCode).map fun v => { a with PostalCode := v }⟩,
    ⟨"state", fun j a => (decString j a.State).map fun v => { a with State := v }⟩ ]

/-- The fields of `PaymentMethod` with their tags, for decoding. -/
def PaymentMethod.setters : List (Setter PaymentMethod) :=
  [ ⟨"type", fun j p => (decString j p.Type_).map fun v => { p with Type_ := v }⟩,
    ⟨"last_four", fun j p => (decString j p.LastFour).map fun v => { p with LastFour := v }⟩,
    ⟨"exp_month", fun j p => (decInt j p.ExpMonth).map fun v => { p with ExpMonth := v }⟩,
    ⟨"exp_year", fun j p => (decInt j p.ExpYear).map fun v => { p with ExpYear := v }⟩,
    ⟨"card_brand", fun j p => (decString j p.CardBrand).map fun v => { p with CardBrand := v }⟩,
    ⟨"name", fun j p => (decString j p.Name).map fun v => { p with Name := v }⟩ ]

/-- The fields of `CloudCustomer` with their tags, for decoding: the fields of
the embedded `CloudCustomerInfo` first, as fields of the outer struct. -/
def CloudCustomer.setters : List (Setter CloudCustomer) :=
  [ ⟨"name", fun j c => (decString j c.Name).map fun v => { c with Name := v }⟩,
    ⟨"email,omitempty", fun j c => (decString j c.Email).map fun v => { c with Email := v }⟩,
    ⟨"contact_first_name,omitempty", fun j c =>
      (decString j c.ContactFirstName).map fun v => { c with ContactFirstName := v }⟩,
    ⟨"contact_last_name,omitempty", fun j c =>
      (decString j c.ContactLastName).map fun v => { c with ContactLastName := v }⟩,
    ⟨"num_employees", fun j c =>
      (decInt j c.NumEmployees).map fun v => { c with NumEmployees := v }⟩,
    ⟨"id", fun j c => (decString j c.ID).map fun v => { c with ID := v }⟩,
    ⟨"creator_id", fun j c => (decString j c.CreatorID).map fun v => { c with CreatorID := v }⟩,
    ⟨"create_at", fun j c => (decInt j c.CreateAt).map fun v => { c with CreateAt := v }⟩,
    ⟨"billing_address", fun j c =>
      (decPtr (decStruct Address.setters) Address.zero j c.BillingAddress).map
        fun v => { c with BillingAddress := v }⟩,
    ⟨"company_address", fun j c =>
      (decPtr (decStruct Address.setters) Address.zero j c.CompanyAddress).map
        fun v => { c with CompanyAddress := v }⟩,
    ⟨"payment_method", fun j c =>
      (decPtr (decStruct PaymentMethod.setters) PaymentMethod.zero j c.PaymentMethod).map
        fun v => { c with PaymentMethod := v }⟩ ]

/-- Go's `json.Unmarshal` into a new `CloudCustomer`. -/
def CloudCustomer.Unmarshal (j : JSON) : Option CloudCustomer :=
  decStruct CloudCustomer.setters j CloudCustomer.zero

/-! ## Well-formed values -/

/-- The string fields of an `Address` hold valid UTF-8. -/
def Address.ValidUTF8 (a : Address) : Prop :=
  IsUTF8 a.City ∧ IsUTF8 a.Country ∧ IsUTF8 a.Line1 ∧ IsUTF8 a.Line2 ∧
    IsUTF8 a.PostalCode ∧ IsUTF8 a.State

/-- The string fields of a `PaymentMethod` hold valid UTF-8. -/
def PaymentMethod.ValidUTF8 (p : PaymentMethod) : Prop :=
  IsUTF8 p.Type_ ∧ IsUTF8 p.LastFour ∧ IsUTF8 p.CardBrand ∧ IsUTF8 p.Name

/-- The string fields of a `CloudCustomer`, of its addresses and of its payment
method, where present, hold valid UTF-8. -/
def CloudCustomer.ValidUTF8 (c : CloudCustomer) : Prop :=
  (IsUTF8 c.Name ∧ IsUTF8 c.Email ∧ IsUTF8 c.ContactFirstName ∧ IsUTF8 c.ContactLastName ∧
    IsUTF8 c.ID ∧ IsUTF8 c.CreatorID) ∧
  (∀ a, c.BillingAddress = some a → a.ValidUTF8) ∧
  (∀ a, c.CompanyAddress = some a → a.ValidUTF8) ∧
  (∀ p, c.PaymentMethod = some p → p.ValidUTF8)

/-- The integer fields of a `CloudCustomer` and of its payment method, where
present, hold values of their Go types `int` and `int64`, as every Go value
does. -/
def CloudCustomer.IntsInRange (c : CloudCustomer) : Prop :=
  IsInt64 c.NumEmployees ∧ IsInt64 c.CreateAt ∧
  (∀ p, c.PaymentMethod = some p → IsInt64 p.ExpMonth ∧ IsInt64 p.ExpYear)

/-! ## Example values -/

/-- A record as a caller hands it to `PreSave`: no id yet. -/
def exampleRecord : NotifyAdminData :=
  { Id := "", CreateAt := 0, UserId := "u1", RequiredPlan := "cloud-professional",
    RequiredFeature := "Unlimited Messages", Trial := false }

/-- Providers whose ids are `id-1`, `id-2`, ... and whose clock reads 1000,
1001, ... -/
def exampleProviders : Providers :=
  { ids := fun k => "id-" ++ toString (k + 1), idCalls := 0,
    clock := fun k => 1000 + k, clockCalls := 0 }

/-- A customer without addresses and payment method. -/
def exampleCustomer : CloudCustomer :=
  { Name := ofText "Acme", Email := [], ContactFirstName := ofText "Ann", ContactLastName := [],
    NumEmployees := 12, ID := ofText "c1", CreatorID := ofText "u1", CreateAt := 1000,
    BillingAddress := none, CompanyAddress := none, PaymentMethod := none }

/-- The example customer, its name the one byte `0xFF`, which is not valid
UTF-8. -/
def badNameCustomer : CloudCustomer :=
  { exampleCustomer with Name := [0xFF] }

/-- The example customer with both addresses and a payment method. -/
def fullCustomer : CloudCustomer :=
  { exampleCustomer with
    Email := ofText "ann@acme.example"
    BillingAddress := some
      { City := ofText "Zürich", Country := ofText "CH", Line1 := ofText "Main St 1", Line2 := [],
        PostalCode := ofText "8000", State := [] }
    PaymentMethod := some
      { Type_ := ofText "card", LastFour := ofText "4242", ExpMonth := 12, ExpYear := 2030,
        CardBrand := ofText "visa", Name := ofText "Ann" } }

/-! ## Lemmas on the library functions -/

theorem Char_toNat_valid (c : Char) :
    c.toNat < 0xD800 ∨ (0xDFFF < c.toNat ∧ c.toNat < 0x110000) := by
  have hv := c.valid
  simpa [Char.toNat, UInt32.isValidChar, Nat.isValidChar] using hv

theorem DecodeRune_EncodeRune (c : Char) (rest : GoString) :
    DecodeRune (EncodeRune c ++ rest) = (c, (EncodeRune c).length) := by
  have hv := Char_toNat_valid c
  have hc : Char.ofNat c.toNat = c := Char.ofNat_toNat c
  unfold EncodeRune
  generalize c.toNat = r at hv hc ⊢
  by_cases h1 : r ≤ 0x7F
  · have : r < 0x80 := by omega
    simp [h1, DecodeRune, this, hc]
  · by_cases h2 : r ≤ 0x7FF
    · have e : (0xC0 + r / 64) % 32 * 64 + (0x80 + r % 64) % 64 = r := by omega
      have a1 : ¬ (0xC0 + r / 64 < 0x80) := by omega
      have a2 : 0xC2 ≤ 0xC0 + r / 64 ∧ 0xC0 + r / 64 ≤ 0xDF := by omega
      have a3 : isCont (0x80 + r % 64) = true := by
        simp [isCont]; omega
      simp only [h1, h2, if_false, if_true, List.cons_append, List.nil_append, DecodeRune, a1, a2,
        a3, e, hc, and_self, List.length_cons, List.length_nil]
    · by_cases h3 : r ≤ 0xFFFF
      · have e : (0xE0 + r / 4096) % 16 * 4096 + (0x80 + r / 64 % 64) % 64 * 64 +
            (0x80 + r % 64) % 64 = r := by omega
        have a1 : ¬ (0xE0 + r / 4096 < 0x80) := by omega
        have a2 : ¬ (0xC2 ≤ 0xE0 + r / 4096 ∧ 0xE0 + r / 4096 ≤ 0xDF) := by omega
        have a3 : 0xE0 ≤ 0xE0 + r / 4096 ∧ 0xE0 + r / 4096 ≤ 0xEF := by omega
        have a4 : acceptSecond (0xE0 + r / 4096) (0x80 + r / 64 % 64) = true := by
          unfold acceptSecond isCont
          split
          · simp; omega
          · split
            · simp; omega
            · split
              · omega
              · split
                · omega
                · simp; omega
        have a5 : isCont (0x80 + r % 64) = true := by
          simp [isCont]; omega
        simp only [h1, h2, h3, if_false, if_true, List.cons_append, List.nil_append, DecodeRune,
          a1, a2, a3, a4, a5, e, hc, and_self, Bool.and_self, List.length_cons, List.length_nil]
      · have e : (0xF0 + r / 262144) % 8 * 262144 + (0x80 + r / 4096 % 64) % 64 * 4096 +
            (0x80 + r / 64 % 64) % 64 * 64 + (0x80 + r % 64) % 64 = r := by omega
        have a1 : ¬ (0xF0 + r / 262144 < 0x80) := by omega
        have a2 : ¬ (0xC2 ≤ 0xF0 + r / 262144 ∧ 0xF0 + r / 262144 ≤ 0xDF) := by omega
        have a3 : ¬ (0xE0 ≤ 0xF0 + r / 262144 ∧ 0xF0 + r / 262144 ≤ 0xEF) := by omega
        have a3b : 0xF0 ≤ 0xF0 + r / 262144 ∧ 0xF0 + r / 262144 ≤ 0xF4 := by omega
        have a4 : acceptSecond (0xF0 + r / 262144) (0x80 + r / 4096 % 64) = true := by
          unfold acceptSecond isCont
          split
          · omega
          · split
            · omega
            · split
              · simp; omega
              · split
                · simp; omega
                · simp; omega
        have a5 : isCont (0x80 + r / 64 % 64) = true := by
          simp [isCont]; omega
        have a6 : isCont (0x80 + r % 64) = true := by
          simp [isCont]; omega
        simp only [h1, h2, h3, if_false, if_true, List.cons_append, List.nil_append, DecodeRune,
          a1, a2, a3, a3b, a4, a5, a6, e, hc, and_self, Bool.and_self, List.length_cons,
          List.length_nil]

theorem EncodeRune_length_pos (c : Char) : 0 < (EncodeRune c).length := by
  unfold EncodeRune
  split
  · simp
  · split
    · simp
    · split <;> simp

theorem EncodeRune_ne_nil (c : Char) : EncodeRune c ≠ [] := by
  intro h
  have := EncodeRune_length_pos c
  rw [h] at this
  simp at this

/-- Reading back the encoding of a text gives the text, with any fuel that
covers the bytes. -/
theorem textLoop_encode (cs : List Char) :
    ∀ fuel : Nat, (cs.map EncodeRune).flatten.length ≤ fuel →
      textLoop fuel (cs.map EncodeRune).flatten = cs := by
  induction cs with
  | nil =>
    intro fuel _
    cases fuel <;> rfl
  | cons c t ih =>
    intro fuel hf
    have hpos := EncodeRune_length_pos c
    simp only [List.map_cons, List.flatten_cons, List.length_append] at hf ⊢
    obtain ⟨k, rfl⟩ : ∃ k, fuel = k + 1 := ⟨fuel - 1, by omega⟩
    cases hE : EncodeRune c with
    | nil => exact absurd hE (EncodeRune_ne_nil c)
    | cons b bs =>
      have hd := DecodeRune_EncodeRune c (t.map EncodeRune).flatten
      rw [hE] at hd hf
      simp only [List.cons_append] at hd ⊢
      simp only [textLoop, hd]
      have hdrop : List.drop (b :: bs).length (b :: (bs ++ (t.map EncodeRune).flatten)) =
          (t.map EncodeRune).flatten := by
        rw [← List.cons_append, List.drop_left]
      rw [hdrop, ih k (by simp only [List.length_cons] at hf; omega)]

theorem toText_ofText (t : String) : toText (ofText t) = t := by
  unfold toText ofText
  rw [textLoop_encode t.data _ (Nat.le_refl _)]

/-- A valid UTF-8 string is stored again as it was. -/
theorem ofText_toText (s : GoString) (h : IsUTF8 s) : ofText (toText s) = s := by
  obtain ⟨t, rfl⟩ := h
  rw [toText_ofText]

/-- The first occurrence of the dot: its position is the length of the longest
prefix without a dot. -/
theorem indexChars_dot (s : List Char) :
    indexChars ['.'] s =
      if '.' ∈ s then some (s.takeWhile (· != '.')).length else none := by
  induction s with
  | nil => simp [indexChars]
  | cons c t ih =>
    by_cases hc : c = '.'
    · subst hc
      simp [indexChars, List.isPrefixOf]
    · have hne : ¬ ('.' = c) := fun h => hc h.symm
      have hb : (c == '.') = false := by simpa using hc
      simp only [indexChars, List.isPrefixOf, hb, Bool.false_and, ih]
      by_cases ht : '.' ∈ t
      · simp [ht, hc, hne, List.takeWhile_cons]
      · simp [ht, hne]

theorem take_length_takeWhile (p : Char → Bool) (s : List Char) :
    s.take (s.takeWhile p).length = s.takeWhile p := by
  induction s with
  | nil => simp
  | cons c t ih =>
    cases hp : p c <;> simp [List.takeWhile_cons, hp, ih]

theorem takeWhile_of_not_mem_dot (s : List Char) (h : '.' ∉ s) :
    s.takeWhile (· != '.') = s := by
  induction s with
  | nil => simp
  | cons c t ih =>
    have hc : c ≠ '.' := fun e => h (by simp [e])
    have ht : '.' ∉ t := fun e => h (by simp [e])
    simp [List.takeWhile_cons, hc, ih ht]

theorem takeWhile_append_dot (pre post : List Char) (h : '.' ∉ pre) :
    (pre ++ '.' :: post).takeWhile (· != '.') = pre := by
  induction pre with
  | nil => simp [List.takeWhile_cons]
  | cons c t ih =>
    have hc : c ≠ '.' := fun e => h (by simp [e])
    have ht : '.' ∉ t := fun e => h (by simp [e])
    simp [List.takeWhile_cons, hc, ih ht]

theorem exists_first_dot (s : List Char) (h : '.' ∈ s) :
    ∃ l r : List Char, s = l ++ '.' :: r ∧ '.' ∉ l := by
  induction s with
  | nil => simp at h
  | cons c t ih =>
    by_cases hc : c = '.'
    · exact ⟨[], t, by simp [hc], by simp⟩
    · have ht : '.' ∈ t := by
        rcases List.mem_cons.1 h with e | e
        · exact absurd e.symm hc
        · exact e
      obtain ⟨l, r, hlr, hl⟩ := ih ht
      refine ⟨c :: l, r, by simp [hlr], ?_⟩
      intro hm
      rcases List.mem_cons.1 hm with e | e
      · exact hc e.symm
      · exact hl e

theorem length_le_byteLen (s : List Char) : s.length ≤ byteLen s := by
  unfold byteLen
  rw [String.utf8ByteSize_mk]
  induction s with
  | nil => simp
  | cons c t ih =>
    have := Char.utf8Size_pos c
    simp only [String.utf8Len_cons, List.length_cons]
    omega

/-- The first entry of the split at dots is the longest prefix without a dot. -/
theorem genSplit_dot_head (s : List Char) :
    (genSplit s ['.'] 0 (-1))[0]? = some (s.takeWhile (· != '.')) := by
  have hlen := length_le_byteLen s
  by_cases hd : '.' ∈ s
  · have hcnt : 0 < s.count '.' := List.count_pos_iff.2 hd
    have hpos : 0 < s.length := List.length_pos_of_mem hd
    obtain ⟨k, hk⟩ : ∃ k, (if s.count '.' + 1 > byteLen s + 1 then byteLen s + 1
        else s.count '.' + 1) - 1 = k + 1 := by
      split
      · exact ⟨byteLen s - 1, by omega⟩
      · exact ⟨s.count '.' - 1, by omega⟩
    simp only [genSplit, countChars]
    simp only [show ((-1 : Int) = 0) = False from by simp, if_false,
      show (['.'] = ([] : List Char)) = False from by simp,
      show ((-1 : Int) < 0) = True from by simp, if_true, hk]
    simp [genSplitLoop, indexChars_dot, hd, take_length_takeWhile]
  · have hcnt : s.count '.' = 0 := List.count_eq_zero.2 hd
    simp only [genSplit, countChars]
    simp only [show ((-1 : Int) = 0) = False from by simp, if_false,
      show (['.'] = ([] : List Char)) = False from by simp,
      show ((-1 : Int) < 0) = True from by simp, if_true, hcnt]
    have : (if 0 + 1 > byteLen s + 1 then byteLen s + 1 else 0 + 1) - 1 = 0 := by
      split <;> omega
    rw [this]
    simp [genSplitLoop, takeWhile_of_not_mem_dot s hd]


theorem Sprintf_plan (p : String) :
    Sprintf "Invalid plan, %s provided" [p] = "Invalid plan, " ++ p ++ " provided" := by
  rfl

theorem Sprintf_feature (f : String) :
    Sprintf "Invalid feature, %s provided" [f] = "Invalid feature, " ++ f ++ " provided" := by
  rfl

theorem GoMap.ok_iff (m : GoMap) (k : String) :
    m.ok k = true ↔ k ∈ m.map Prod.fst := by
  induction m with
  | nil => simp [GoMap.ok, List.lookup]
  | cons e m ih =>
    obtain ⟨a, u⟩ := e
    by_cases h : k = a
    · subst h
      simp [GoMap.ok, List.lookup]
    · have hb : (k == a) = false := by simpa using h
      have : GoMap.ok ((a, u) :: m) k = GoMap.ok m k := by
        simp [GoMap.ok, List.lookup, hb]
      rw [this, ih]
      simp [h]

theorem validCloudSKUs_ok (p : String) :
    validCloudSKUs.ok p = true ↔
      (p = "cloud-starter" ∨ p = "cloud-professional" ∨ p = "cloud-enterprise") := by
  rw [GoMap.ok_iff]
  simp [validCloudSKUs]

theorem nonAdminPaidFeatures_ok (f : String) :
    nonAdminPaidFeatures.ok f = true ↔
      (f = "Guest Accounts" ∨ f = "Custom User groups" ∨ f = "Create Multiple Teams" ∨
        f = "Start call" ∨ f = "Playbooks Retrospective" ∨ f = "Unlimited Messages" ∨
        f = "Unlimited File Storage" ∨ f = "Unlimited Integrations" ∨
        f = "Unlimited Board cards" ∨ f = "All Professional features") := by
  rw [GoMap.ok_iff]
  simp [nonAdminPaidFeatures]

/-- The workspace name is the longest prefix of the DNS name without a dot. -/
theorem GetWorkSpaceNameFromDNS_eq (s : Subscription) :
    s.GetWorkSpaceNameFromDNS = some ⟨s.DNS.data.takeWhile (· != '.')⟩ := by
  unfold Subscription.GetWorkSpaceNameFromDNS Split
  rw [List.getElem?_map]
  have h := genSplit_dot_head s.DNS.data
  have hdot : (".": String).data = ['.'] := rfl
  rw [hdot, h]
  rfl

/-- C1: `IsValid` returns `nil` exactly when `RequiredPlan` is one of the three
plan names and `RequiredFeature` is one of the ten feature names (exact string
equality); it returns `nil` for (`cloud-professional`, `Unlimited Messages`). -/
theorem IsValid_nil_iff :
    (∀ nad : NotifyAdminData,
      nad.IsValid.1 = none ↔
        ((nad.RequiredPlan = "cloud-starter" ∨ nad.RequiredPlan = "cloud-professional" ∨
            nad.RequiredPlan = "cloud-enterprise") ∧
          (nad.RequiredFeature = "Guest Accounts" ∨
            nad.RequiredFeature = "Custom User groups" ∨
            nad.RequiredFeature = "Create Multiple Teams" ∨
            nad.RequiredFeature = "Start call" ∨
            nad.RequiredFeature = "Playbooks Retrospective" ∨
            nad.RequiredFeature = "Unlimited Messages" ∨
            nad.RequiredFeature = "Unlimited File Storage" ∨
            nad.RequiredFeature = "Unlimited Integrations" ∨
            nad.RequiredFeature = "Unlimited Board cards" ∨
            nad.RequiredFeature = "All Professional features"))) ∧
    (∀ (id userId : String) (createAt : Int) (trial : Bool),
      (NotifyAdminData.IsValid
        { Id := id, CreateAt := createAt, UserId := userId,
          RequiredPlan := "cloud-professional", RequiredFeature := "Unlimited Messages",
          Trial := trial }).1 = none) := by
  have key : ∀ nad : NotifyAdminData, nad.IsValid.1 = none ↔
      (validCloudSKUs.ok nad.RequiredPlan = true ∧
        nonAdminPaidFeatures.ok nad.RequiredFeature = true) := by
    intro nad
    unfold NotifyAdminData.IsValid
    cases hp : validCloudSKUs.ok nad.RequiredPlan <;>
      cases hf : nonAdminPaidFeatures.ok nad.RequiredFeature <;> simp
  refine ⟨fun nad => ?_, fun id userId createAt trial => ?_⟩
  · rw [key, validCloudSKUs_ok, nonAdminPaidFeatures_ok]
  · rw [key, validCloudSKUs_ok, nonAdminPaidFeatures_ok]
    simp

/-- C2: when `RequiredPlan` is none of the three plan names, whatever
`RequiredFeature` is, `IsValid` returns an error of status 400 with message
`Invalid plan, <RequiredPlan> provided`; that message is never a feature
message, and the receiver is returned as it was. -/
theorem IsValid_invalid_plan (nad : NotifyAdminData)
    (h1 : nad.RequiredPlan ≠ "cloud-starter")
    (h2 : nad.RequiredPlan ≠ "cloud-professional")
    (h3 : nad.RequiredPlan ≠ "cloud-enterprise") :
    nad.IsValid.1 = some
        { Where := "NotifyAdmin.IsValid",
          Message := "Invalid plan, " ++ nad.RequiredPlan ++ " provided",
          Params := none, DetailedError := "", StatusCode := 400 } ∧
      (∀ e, nad.IsValid.1 = some e →
        e.StatusCode = 400 ∧
        e.Message = "Invalid plan, " ++ nad.RequiredPlan ++ " provided" ∧
        ∀ f : String, e.Message ≠ "Invalid feature, " ++ f ++ " provided") := by
  have hp : validCloudSKUs.ok nad.RequiredPlan = false := by
    rw [Bool.eq_false_iff, Ne, validCloudSKUs_ok]
    simp [h1, h2, h3]
  have hr : nad.IsValid.1 = some
        { Where := "NotifyAdmin.IsValid",
          Message := "Invalid plan, " ++ nad.RequiredPlan ++ " provided",
          Params := none, DetailedError := "", StatusCode := 400 } := by
    unfold NotifyAdminData.IsValid
    simp [hp, NewAppError, Sprintf_plan, StatusBadRequest]
  refine ⟨hr, ?_⟩
  intro e he
  rw [hr] at he
  cases he
  refine ⟨rfl, rfl, ?_⟩
  intro f hf
  have := congrArg String.data hf
  simp [String.data_append] at this

/-- C3: when `RequiredPlan` is one of the three plan names and `RequiredFeature`
is none of the ten feature names, `IsValid` returns an error of status 400 with
message `Invalid feature, <RequiredFeature> provided`; the message is built from
the feature, never a plan message. -/
theorem IsValid_invalid_feature (nad : NotifyAdminData)
    (hp : nad.RequiredPlan = "cloud-starter" ∨ nad.RequiredPlan = "cloud-professional" ∨
      nad.RequiredPlan = "cloud-enterprise")
    (hf : ¬ (nad.RequiredFeature = "Guest Accounts" ∨
      nad.RequiredFeature = "Custom User groups" ∨
      nad.RequiredFeature = "Create Multiple Teams" ∨
      nad.RequiredFeature = "Start call" ∨
      nad.RequiredFeature = "Playbooks Retrospective" ∨
      nad.RequiredFeature = "Unlimited Messages" ∨
      nad.RequiredFeature = "Unlimited File Storage" ∨
      nad.RequiredFeature = "Unlimited Integrations" ∨
      nad.RequiredFeature = "Unlimited Board cards" ∨
      nad.RequiredFeature = "All Professional features")) :
    nad.IsValid.1 = some
        { Where := "NotifyAdmin.IsValid",
          Message := "Invalid feature, " ++ nad.RequiredFeature ++ " provided",
          Params := none, DetailedError := "", StatusCode := 400 } ∧
      (∀ e, nad.IsValid.1 = some e →
        e.StatusCode = 400 ∧
        e.Message = "Invalid feature, " ++ nad.RequiredFeature ++ " provided" ∧
        ∀ p : String, e.Message ≠ "Invalid plan, " ++ p ++ " provided") := by
  have hp1 : validCloudSKUs.ok nad.RequiredPlan = true := (validCloudSKUs_ok _).2 hp
  have hf1 : nonAdminPaidFeatures.ok nad.RequiredFeature = false := by
    rw [Bool.eq_false_iff, Ne, nonAdminPaidFeatures_ok]
    exact hf
  have hr : nad.IsValid.1 = some
        { Where := "NotifyAdmin.IsValid",
          Message := "Invalid feature, " ++ nad.RequiredFeature ++ " provided",
          Params := none, DetailedError := "", StatusCode := 400 } := by
    unfold NotifyAdminData.IsValid
    simp [hp1, hf1, NewAppError, Sprintf_feature, StatusBadRequest]
  refine ⟨hr, ?_⟩
  intro e he
  rw [hr] at he
  cases he
  refine ⟨rfl, rfl, ?_⟩
  intro p hfp
  have := congrArg String.data hfp
  simp [String.data_append] at this

/-- C4: when the DNS name contains a dot, it splits as `pre ++ "." ++ post` with
no dot in `pre`, and for every such split `GetWorkSpaceNameFromDNS` returns
`pre`, the part before the first dot: `test` for `test.mattermost.cloud.com`,
the empty string for a DNS name that starts with a dot. -/
theorem GetWorkSpaceNameFromDNS_dotted :
    (∀ s : Subscription, '.' ∈ s.DNS.data →
      (∃ pre post : String, s.DNS = pre ++ "." ++ post ∧ '.' ∉ pre.data) ∧
      (∀ pre post : String, s.DNS = pre ++ "." ++ post → '.' ∉ pre.data →
        s.GetWorkSpaceNameFromDNS = some pre)) ∧
    (Subscription.ofDNS "test.mattermost.cloud.com").GetWorkSpaceNameFromDNS = some "test" ∧
    (∀ rest : String, (Subscription.ofDNS ("." ++ rest)).GetWorkSpaceNameFromDNS = some "") := by
  have huniv : ∀ (s : Subscription) (pre post : String), s.DNS = pre ++ "." ++ post →
      '.' ∉ pre.data → s.GetWorkSpaceNameFromDNS = some pre := by
    intro s pre post hs hpre
    rw [GetWorkSpaceNameFromDNS_eq, hs]
    have hd : (pre ++ "." ++ post).data = pre.data ++ '.' :: post.data := by
      simp [String.data_append]
    rw [hd, takeWhile_append_dot _ _ hpre]
  refine ⟨fun s hmem => ⟨?_, huniv s⟩, by decide, fun rest => ?_⟩
  · obtain ⟨l, r, hlr, hl⟩ := exists_first_dot s.DNS.data hmem
    refine ⟨⟨l⟩, ⟨r⟩, ?_, hl⟩
    apply String.ext
    simp [String.data_append, hlr]
  · exact huniv (Subscription.ofDNS ("." ++ rest)) "" rest (by simp [Subscription.ofDNS])
      (by simp)

/-- C5: `GetWorkSpaceNameFromDNS` never fails: for every DNS name the split at
dots has at least one entry, so the index expression `[0]` yields a value; for
the empty DNS name the value is the empty string. -/
theorem GetWorkSpaceNameFromDNS_total :
    (∀ dns : String, 1 ≤ (Split dns ".").length) ∧
    (∀ s : Subscription, ∃ name : String, s.GetWorkSpaceNameFromDNS = some name) ∧
    (Split "" "." = [""]) ∧
    (∀ s : Subscription, Subscription.GetWorkSpaceNameFromDNS { s with DNS := "" } = some "") := by
  refine ⟨fun dns => ?_, fun s => ⟨_, GetWorkSpaceNameFromDNS_eq s⟩, by decide, fun s => ?_⟩
  · have h := GetWorkSpaceNameFromDNS_eq (Subscription.ofDNS dns)
    unfold Subscription.GetWorkSpaceNameFromDNS at h
    have h2 : (Subscription.ofDNS dns).DNS = dns := rfl
    rw [h2] at h
    cases hsp : Split dns "." with
    | nil => rw [hsp] at h; simp at h
    | cons a t => simp
  · rw [GetWorkSpaceNameFromDNS_eq]
    rfl

/-- Witness of C2: the plan `cloud-free` with a feature of the list. -/
theorem IsValid_invalid_plan_witness :
    (NotifyAdminData.IsValid
      { Id := "", CreateAt := 0, UserId := "u1", RequiredPlan := "cloud-free",
        RequiredFeature := "Guest Accounts", Trial := false }).1 =
      some { Where := "NotifyAdmin.IsValid", Message := "Invalid plan, cloud-free provided",
             Params := none, DetailedError := "", StatusCode := 400 } :=
  (IsValid_invalid_plan
    { Id := "", CreateAt := 0, UserId := "u1", RequiredPlan := "cloud-free",
      RequiredFeature := "Guest Accounts", Trial := false }
    (by decide) (by decide) (by decide)).1

/-- Witness of C3: the plan `cloud-starter` with the feature `Dark mode`. -/
theorem IsValid_invalid_feature_witness :
    (NotifyAdminData.IsValid
      { Id := "", CreateAt := 0, UserId := "u1", RequiredPlan := "cloud-starter",
        RequiredFeature := "Dark mode", Trial := false }).1 =
      some { Where := "NotifyAdmin.IsValid", Message := "Invalid feature, Dark mode provided",
             Params := none, DetailedError := "", StatusCode := 400 } :=
  (IsValid_invalid_feature
    { Id := "", CreateAt := 0, UserId := "u1", RequiredPlan := "cloud-starter",
      RequiredFeature := "Dark mode", Trial := false }
    (by decide) (by decide)).1

/-- Witness of C4: the DNS name `acme.example.org` has a dot and gives `acme`. -/
theorem GetWorkSpaceNameFromDNS_dotted_witness :
    '.' ∈ (Subscription.ofDNS "acme.example.org").DNS.data ∧
      (Subscription.ofDNS "acme.example.org").GetWorkSpaceNameFromDNS = some "acme" :=
  ⟨by decide,
    (GetWorkSpaceNameFromDNS_dotted.1 (Subscription.ofDNS "acme.example.org") (by decide)).2
      "acme" "example.org" (by decide) (by decide)⟩

/-- C6: on a record whose `Id` is empty, `PreSave` sets `Id` to the value
`NewId` returns and `CreateAt` to the value `GetMillis` returns; when that id is
not empty and that reading is positive, the record ends with a non-empty `Id`
and a positive `CreateAt`. -/
theorem PreSave_empty_id (nad : NotifyAdminData) (w : Providers) (h : nad.Id = "") :
    (nad.PreSave w).1.Id = (NewId w).1 ∧
    (nad.PreSave w).1.CreateAt = (GetMillis (NewId w).2).1 ∧
    (GetMillis (NewId w).2).1 = (GetMillis w).1 ∧
    ((NewId w).1 ≠ "" → 0 < (GetMillis w).1 →
      (nad.PreSave w).1.Id ≠ "" ∧ 0 < (nad.PreSave w).1.CreateAt) := by
  have h1 : (nad.PreSave w).1.Id = (NewId w).1 := by
    simp [NotifyAdminData.PreSave, h]
  have h2 : (nad.PreSave w).1.CreateAt = (GetMillis (NewId w).2).1 := by
    simp [NotifyAdminData.PreSave, h]
  have h3 : (GetMillis (NewId w).2).1 = (GetMillis w).1 := rfl
  refine ⟨h1, h2, h3, fun hid ht => ⟨?_, ?_⟩⟩
  · rw [h1]; exact hid
  · rw [h2, h3]; exact ht

/-- Witness of C6: a record without id, a provider whose ids are `id-1` and
whose clock starts at 1000. -/
theorem PreSave_empty_id_witness :
    (NotifyAdminData.PreSave exampleRecord exampleProviders).1.Id = "id-1" ∧
      (NotifyAdminData.PreSave exampleRecord exampleProviders).1.CreateAt = 1000 ∧
      (NotifyAdminData.PreSave exampleRecord exampleProviders).1.Id ≠ "" ∧
      0 < (NotifyAdminData.PreSave exampleRecord exampleProviders).1.CreateAt :=
  ⟨(PreSave_empty_id exampleRecord exampleProviders rfl).1,
    (PreSave_empty_id exampleRecord exampleProviders rfl).2.1,
    ((PreSave_empty_id exampleRecord exampleProviders rfl).2.2.2 (by decide) (by decide)).1,
    ((PreSave_empty_id exampleRecord exampleProviders rfl).2.2.2 (by decide) (by decide)).2⟩

/-- C7: on a record whose `Id` is not empty, `PreSave` keeps `Id`, does not call
`NewId`, gives the same record whatever ids the provider holds, and sets
`CreateAt` to the clock reading of the call; two calls in a row on a record that
starts without id, under a provider of non-empty ids, end with the id of the
first call and the clock reading of the second. -/
theorem PreSave_keeps_id :
    (∀ (nad : NotifyAdminData) (w : Providers), nad.Id ≠ "" →
      (nad.PreSave w).1.Id = nad.Id ∧
      (nad.PreSave w).1.CreateAt = (GetMillis w).1 ∧
      (nad.PreSave w).2.idCalls = w.idCalls ∧
      (∀ ids : Nat → String, (nad.PreSave { w with ids := ids }).1 = (nad.PreSave w).1)) ∧
    (∀ (nad : NotifyAdminData) (w : Providers), nad.Id = "" → (NewId w).1 ≠ "" →
      (nad.PreSave w).1.CreateAt = w.clock w.clockCalls ∧
      (((nad.PreSave w).1.PreSave (nad.PreSave w).2).1.Id = (NewId w).1 ∧
        ((nad.PreSave w).1.PreSave (nad.PreSave w).2).1.Id = (nad.PreSave w).1.Id ∧
        ((nad.PreSave w).1.PreSave (nad.PreSave w).2).1.CreateAt =
          w.clock (w.clockCalls + 1))) := by
  have keep : ∀ (nad : NotifyAdminData) (w : Providers), nad.Id ≠ "" →
      (nad.PreSave w).1.Id = nad.Id ∧
      (nad.PreSave w).1.CreateAt = (GetMillis w).1 ∧
      (nad.PreSave w).2.idCalls = w.idCalls ∧
      (∀ ids : Nat → String, (nad.PreSave { w with ids := ids }).1 = (nad.PreSave w).1) := by
    intro nad w h
    refine ⟨?_, ?_, ?_, fun ids => ?_⟩ <;>
      simp [NotifyAdminData.PreSave, h, GetMillis]
  refine ⟨keep, ?_⟩
  intro nad w h hid
  have hfirst : (nad.PreSave w).1.Id = (NewId w).1 := by
    simp [NotifyAdminData.PreSave, h]
  have hne : (nad.PreSave w).1.Id ≠ "" := by rw [hfirst]; exact hid
  have hk := keep (nad.PreSave w).1 (nad.PreSave w).2 hne
  refine ⟨by simp [NotifyAdminData.PreSave, h, GetMillis, NewId], ?_, hk.1, ?_⟩
  · rw [hk.1, hfirst]
  · rw [hk.2.1]
    simp [NotifyAdminData.PreSave, h, GetMillis, NewId]

/-- Witness of C7: a record that has the id `abc` keeps it; a record without one
gets `id-1` from the first call and the reading 1001 from the second. -/
theorem PreSave_keeps_id_witness :
    (NotifyAdminData.PreSave { exampleRecord with Id := "abc" } exampleProviders).1.Id = "abc" ∧
      ((NotifyAdminData.PreSave exampleRecord exampleProviders).1.PreSave
          (NotifyAdminData.PreSave exampleRecord exampleProviders).2).1.Id = "id-1" ∧
      ((NotifyAdminData.PreSave exampleRecord exampleProviders).1.PreSave
          (NotifyAdminData.PreSave exampleRecord exampleProviders).2).1.CreateAt = 1001 :=
  ⟨(PreSave_keeps_id.1 { exampleRecord with Id := "abc" } exampleProviders (by decide)).1,
    (PreSave_keeps_id.2 exampleRecord exampleProviders rfl (by decide)).2.1,
    (PreSave_keeps_id.2 exampleRecord exampleProviders rfl (by decide)).2.2.2⟩

/-- C8: `IsValid` assigns to no field: on every path the receiver after the call
is the receiver before it, field by field, so a second call, and any number of
further calls, returns what the first returned. -/
theorem IsValid_no_side_effects (nad : NotifyAdminData) :
    nad.IsValid.2 = nad ∧
    (nad.IsValid.2.Id = nad.Id ∧ nad.IsValid.2.CreateAt = nad.CreateAt ∧
      nad.IsValid.2.UserId = nad.UserId ∧ nad.IsValid.2.RequiredPlan = nad.RequiredPlan ∧
      nad.IsValid.2.RequiredFeature = nad.RequiredFeature ∧ nad.IsValid.2.Trial = nad.Trial) ∧
    nad.IsValid.2.IsValid = nad.IsValid ∧
    (∀ n : Nat, ((fun r : NotifyAdminData => r.IsValid.2)^[n] nad).IsValid = nad.IsValid) := by
  have h : ∀ r : NotifyAdminData, r.IsValid.2 = r := by
    intro r
    unfold NotifyAdminData.IsValid
    split
    · rfl
    · split <;> rfl
  refine ⟨h nad, ?_, by rw [h nad], fun n => ?_⟩
  · rw [h nad]
    exact ⟨rfl, rfl, rfl, rfl, rfl, rfl⟩
  · induction n with
    | zero => rfl
    | succ k ih =>
      rw [Function.iterate_succ_apply, h nad]
      exact ih

/-- The tags of `CloudCustomer` and of its embedded `CloudCustomerInfo`, parsed. -/
theorem parseTag_customer :
    parseTag "name" = ("name", []) ∧
    parseTag "email,omitempty" = ("email", ["omitempty"]) ∧
    parseTag "contact_first_name,omitempty" = ("contact_first_name", ["omitempty"]) ∧
    parseTag "contact_last_name,omitempty" = ("contact_last_name", ["omitempty"]) ∧
    parseTag "num_employees" = ("num_employees", []) ∧
    parseTag "id" = ("id", []) ∧
    parseTag "creator_id" = ("creator_id", []) ∧
    parseTag "create_at" = ("create_at", []) ∧
    parseTag "billing_address" = ("billing_address", []) ∧
    parseTag "company_address" = ("company_address", []) ∧
    parseTag "payment_method" = ("payment_method", []) := by
  decide

/-- C9, as the spec states it, fails: with `Cards` set to 5 and `Views` nil the
output has the key `cards` and also the key `views`. -/
theorem BoardsLimits_views_absent_counterexample :
    ¬ ((BoardsLimits.Marshal { Cards := some 5, Views := none }).hasKey "cards" = true ∧
      (BoardsLimits.Marshal { Cards := some 5, Views := none }).hasKey "views" = false) := by
  decide

/-- C9, amended: with `Cards` set and `Views` nil the output is the object with
the key `cards`, holding the number, and the key `views`, holding `null`: the
key is written, its value is neither zero nor left out. -/
theorem BoardsLimits_views_null (c : Int) :
    BoardsLimits.Marshal { Cards := some c, Views := none } =
      .obj [("cards", .num c), ("views", .null)] ∧
    (BoardsLimits.Marshal { Cards := some c, Views := none }).hasKey "cards" = true ∧
    (BoardsLimits.Marshal { Cards := some c, Views := none }).hasKey "views" = true ∧
    (BoardsLimits.Marshal { Cards := some c, Views := none }).get? "cards" = some (.num c) ∧
    (BoardsLimits.Marshal { Cards := some c, Views := none }).get? "views" = some .null := by
  have h : BoardsLimits.Marshal { Cards := some c, Views := none } =
      .obj [("cards", .num c), ("views", .null)] := rfl
  rw [h]
  exact ⟨rfl, rfl, rfl, rfl, rfl⟩

/-- C10, as the spec states it, fails: a customer without addresses and payment
method is written with the key `billing_address`. -/
theorem CloudCustomer_nil_omitted_counterexample :
    ¬ ((CloudCustomer.Marshal exampleCustomer).hasKey "billing_address" = false ∧
      (CloudCustomer.Marshal exampleCustomer).hasKey "company_address" = false ∧
      (CloudCustomer.Marshal exampleCustomer).hasKey "payment_method" = false) := by
  decide

/-- C10, amended: for a customer whose `BillingAddress`, `CompanyAddress` and
`PaymentMethod` are nil, the output has the three keys `billing_address`,
`company_address` and `payment_method`, each holding `null`. -/
theorem CloudCustomer_nil_null (c : CloudCustomer) (h1 : c.BillingAddress = none)
    (h2 : c.CompanyAddress = none) (h3 : c.PaymentMethod = none) :
    (c.Marshal.get? "billing_address" = some .null ∧
      c.Marshal.get? "company_address" = some .null ∧
      c.Marshal.get? "payment_method" = some .null) ∧
    (c.Marshal.hasKey "billing_address" = true ∧
      c.Marshal.hasKey "company_address" = true ∧
      c.Marshal.hasKey "payment_method" = true) := by
  obtain ⟨⟨n, e, f, l, k⟩, i, cr, ca, b, co, p⟩ := c
  simp only at h1 h2 h3
  subst h1 h2 h3
  by_cases he : e = [] <;> by_cases hf : f = [] <;> by_cases hl : l = [] <;>
    simp [CloudCustomer.Marshal, CloudCustomerInfo.fields, encodeFields, Field.ofString,
      Field.ofInt, Field.ofPtr, he, hf, hl, JSON.get?, JSON.hasKey, JSON.keys, List.lookup,
      omitEmpty, parseTag_customer]

/-- Witness of C10: the example customer has neither address nor payment
method. -/
theorem CloudCustomer_nil_null_witness :
    exampleCustomer.BillingAddress = none ∧
      (CloudCustomer.Marshal exampleCustomer).get? "billing_address" = some .null ∧
      (CloudCustomer.Marshal exampleCustomer).hasKey "payment_method" = true :=
  ⟨rfl, (CloudCustomer_nil_null exampleCustomer rfl rfl rfl).1.1,
    (CloudCustomer_nil_null exampleCustomer rfl rfl rfl).2.2.2⟩

/-- The tags of `ProductLimits`, parsed. -/
theorem parseTag_limits :
    parseTag "boards,omitempty" = ("boards", ["omitempty"]) ∧
    parseTag "files,omitempty" = ("files", ["omitempty"]) ∧
    parseTag "integrations,omitempty" = ("integrations", ["omitempty"]) ∧
    parseTag "messages,omitempty" = ("messages", ["omitempty"]) ∧
    parseTag "teams,omitempty" = ("teams", ["omitempty"]) := by
  decide

/-- C11: a `ProductLimits` whose five sub-structs are all nil is written as the
empty JSON object, without any key; the output is the empty object only then. -/
theorem ProductLimits_all_nil_empty :
    ProductLimits.Marshal
        { Boards := none, Files := none, Integrations := none, Messages := none,
          Teams := none } = .obj [] ∧
    (ProductLimits.Marshal
        { Boards := none, Files := none, Integrations := none, Messages := none,
          Teams := none }).keys = [] ∧
    (∀ p : ProductLimits, p.Marshal.keys = [] ↔
      (p.Boards = none ∧ p.Files = none ∧ p.Integrations = none ∧ p.Messages = none ∧
        p.Teams = none)) := by
  refine ⟨rfl, rfl, ?_⟩
  intro p
  obtain ⟨b, f, i, m, t⟩ := p
  cases b <;> cases f <;> cases i <;> cases m <;> cases t <;>
    simp [ProductLimits.Marshal, encodeFields, Field.ofPtr, omitEmpty, parseTag_limits,
      JSON.keys]

/-- C13: when the DNS name has no dot, `GetWorkSpaceNameFromDNS` returns the
whole DNS name, which is not empty when the DNS name is not; for every DNS name
the result is a prefix of the DNS name and has no dot. -/
theorem GetWorkSpaceNameFromDNS_dot_free :
    (∀ s : Subscription, '.' ∉ s.DNS.data → s.GetWorkSpaceNameFromDNS = some s.DNS) ∧
    (∀ s : Subscription, '.' ∉ s.DNS.data → s.DNS ≠ "" →
      ∃ name : String, s.GetWorkSpaceNameFromDNS = some name ∧ name ≠ "") ∧
    (∀ s : Subscription, ∃ name : String, s.GetWorkSpaceNameFromDNS = some name ∧
      name.data <+: s.DNS.data ∧ '.' ∉ name.data) := by
  have hfree : ∀ s : Subscription, '.' ∉ s.DNS.data →
      s.GetWorkSpaceNameFromDNS = some s.DNS := by
    intro s h
    rw [GetWorkSpaceNameFromDNS_eq, takeWhile_of_not_mem_dot _ h]
  refine ⟨hfree, fun s h hne => ⟨s.DNS, hfree s h, hne⟩, fun s => ?_⟩
  refine ⟨_, GetWorkSpaceNameFromDNS_eq s, List.takeWhile_prefix _, ?_⟩
  intro hmem
  have := List.mem_takeWhile_imp hmem
  simp at this

/-- Witness of C13: the DNS name `localhost` has no dot and is returned whole. -/
theorem GetWorkSpaceNameFromDNS_dot_free_witness :
    '.' ∉ (Subscription.ofDNS "localhost").DNS.data ∧
      (Subscription.ofDNS "localhost").GetWorkSpaceNameFromDNS = some "localhost" ∧
      (∃ name : String,
        (Subscription.ofDNS "localhost").GetWorkSpaceNameFromDNS = some name ∧ name ≠ "") :=
  ⟨by decide,
    GetWorkSpaceNameFromDNS_dot_free.1 (Subscription.ofDNS "localhost") (by decide),
    GetWorkSpaceNameFromDNS_dot_free.2.1 (Subscription.ofDNS "localhost") (by decide)
      (by decide)⟩

/-- C14: `PreSave` changes only `Id` and `CreateAt`: `UserId`, `RequiredPlan`,
`RequiredFeature` and `Trial` are as before, so `IsValid` returns on the record
after `PreSave` what it returns on the record before, and a valid record stays
valid. -/
theorem PreSave_frame (nad : NotifyAdminData) (w : Providers) :
    ((nad.PreSave w).1.UserId = nad.UserId ∧
      (nad.PreSave w).1.RequiredPlan = nad.RequiredPlan ∧
      (nad.PreSave w).1.RequiredFeature = nad.RequiredFeature ∧
      (nad.PreSave w).1.Trial = nad.Trial) ∧
    (nad.PreSave w).1 =
      { nad with Id := (nad.PreSave w).1.Id, CreateAt := (nad.PreSave w).1.CreateAt } ∧
    (nad.PreSave w).1.IsValid.1 = nad.IsValid.1 ∧
    (nad.IsValid.1 = none → (nad.PreSave w).1.IsValid.1 = none) := by
  have hf : (nad.PreSave w).1.UserId = nad.UserId ∧
      (nad.PreSave w).1.RequiredPlan = nad.RequiredPlan ∧
      (nad.PreSave w).1.RequiredFeature = nad.RequiredFeature ∧
      (nad.PreSave w).1.Trial = nad.Trial := by
    unfold NotifyAdminData.PreSave
    by_cases h : nad.Id = "" <;> simp [h]
  have hv : (nad.PreSave w).1.IsValid.1 = nad.IsValid.1 := by
    unfold NotifyAdminData.IsValid
    rw [hf.2.1, hf.2.2.1]
    split
    · rfl
    · split <;> rfl
  refine ⟨hf, ?_, hv, fun h => by rw [hv]; exact h⟩
  unfold NotifyAdminData.PreSave
  by_cases h : nad.Id = "" <;> simp [h]

/-- Witness of C14: the example record is valid before `PreSave` and after. -/
theorem PreSave_frame_witness :
    exampleRecord.IsValid.1 = none ∧
      (NotifyAdminData.PreSave exampleRecord exampleProviders).1.IsValid.1 = none :=
  ⟨by decide, (PreSave_frame exampleRecord exampleProviders).2.2.2 (by decide)⟩

/-- C15: the result of `IsValid` depends on `RequiredPlan` and `RequiredFeature`
only: two records that agree on these two fields get the same result, `nil` for
both or errors equal in every field, whatever their other fields hold. -/
theorem IsValid_depends_on_plan_feature (a b : NotifyAdminData)
    (hp : a.RequiredPlan = b.RequiredPlan) (hf : a.RequiredFeature = b.RequiredFeature) :
    a.IsValid.1 = b.IsValid.1 ∧
    (a.IsValid.1 = none ↔ b.IsValid.1 = none) ∧
    (∀ ea eb : AppError, a.IsValid.1 = some ea → b.IsValid.1 = some eb →
      ea.Message = eb.Message ∧ ea.StatusCode = eb.StatusCode) := by
  have h : a.IsValid.1 = b.IsValid.1 := by
    unfold NotifyAdminData.IsValid
    rw [hp, hf]
    split
    · rfl
    · split <;> rfl
  refine ⟨h, by rw [h], fun ea eb ha hb => ?_⟩
  rw [h, hb] at ha
  cases ha
  exact ⟨rfl, rfl⟩

/-- Witness of C15: two records with the plan `cloud-free` that differ in `Id`,
`CreateAt`, `UserId` and `Trial`. -/
theorem IsValid_depends_on_plan_feature_witness :
    (NotifyAdminData.IsValid
        { Id := "a", CreateAt := 1, UserId := "u1", RequiredPlan := "cloud-free",
          RequiredFeature := "Start call", Trial := false }).1 =
      (NotifyAdminData.IsValid
        { Id := "", CreateAt := 77, UserId := "u2", RequiredPlan := "cloud-free",
          RequiredFeature := "Start call", Trial := true }).1 :=
  (IsValid_depends_on_plan_feature
    { Id := "a", CreateAt := 1, UserId := "u1", RequiredPlan := "cloud-free",
      RequiredFeature := "Start call", Trial := false }
    { Id := "", CreateAt := 77, UserId := "u2", RequiredPlan := "cloud-free",
      RequiredFeature := "Start call", Trial := true } rfl rfl).1

/-- The tags of `PaymentMethod` and `Address`, parsed. -/
theorem parseTag_nested :
    parseTag "type" = ("type", []) ∧
    parseTag "last_four" = ("last_four", []) ∧
    parseTag "exp_month" = ("exp_month", []) ∧
    parseTag "exp_year" = ("exp_year", []) ∧
    parseTag "card_brand" = ("card_brand", []) ∧
    parseTag "city" = ("city", []) ∧
    parseTag "country" = ("country", []) ∧
    parseTag "line1" = ("line1", []) ∧
    parseTag "line2" = ("line2", []) ∧
    parseTag "postal_code" = ("postal_code", []) ∧
    parseTag "state" = ("state", []) := by
  decide

/-- Decoding the encoding of an `Address` into a new `Address` gives it back
when its strings are valid UTF-8. -/
theorem Address_roundtrip (a : Address) (h : a.ValidUTF8) :
    decStruct Address.setters (Address.Marshal a) Address.zero = some a := by
  obtain ⟨h1, h2, h3, h4, h5, h6⟩ := h
  have e : decStruct Address.setters (Address.Marshal a) Address.zero =
      some { City := ofText (toText a.City), Country := ofText (toText a.Country),
             Line1 := ofText (toText a.Line1), Line2 := ofText (toText a.Line2),
             PostalCode := ofText (toText a.PostalCode), State := ofText (toText a.State) } := rfl
  rw [e, ofText_toText _ h1, ofText_toText _ h2, ofText_toText _ h3, ofText_toText _ h4,
    ofText_toText _ h5, ofText_toText _ h6]

/-- Decoding the encoding of a `PaymentMethod` into a new one gives it back when
its strings are valid UTF-8 and its numbers are `int` values. -/
theorem PaymentMethod_roundtrip (p : PaymentMethod) (h : p.ValidUTF8)
    (hm : IsInt64 p.ExpMonth) (hy : IsInt64 p.ExpYear) :
    decStruct PaymentMethod.setters (PaymentMethod.Marshal p) PaymentMethod.zero = some p := by
  obtain ⟨h1, h2, h3, h4⟩ := h
  obtain ⟨t, l, m, y, b, n⟩ := p
  simp only at h1 h2 h3 h4 hm hy
  simp [PaymentMethod.Marshal, PaymentMethod.setters, PaymentMethod.zero, encodeFields,
    Field.ofString, Field.ofInt, omitEmpty, parseTag_nested, parseTag_customer, decStruct,
    decodeMembers, findSetter, decString, decInt, hm, hy, ofText_toText _ h1,
    ofText_toText _ h2, ofText_toText _ h3, ofText_toText _ h4]

theorem Field.ofPtr_tag {α : Type} (tag : String) (enc : α → JSON) (v : Option α) :
    (Field.ofPtr tag enc v).tag = tag := rfl

theorem Field.ofPtr_empty {α : Type} (tag : String) (enc : α → JSON) (v : Option α) :
    (Field.ofPtr tag enc v).empty = v.isNone := rfl

/-- A pointer to an `Address`, written and read back into a nil pointer. -/
theorem decPtr_Address (tag : String) (o : Option Address)
    (h : ∀ a, o = some a → a.ValidUTF8) :
    decPtr (decStruct Address.setters) Address.zero
      (Field.ofPtr tag Address.Marshal o).value none = some o := by
  cases o with
  | none => rfl
  | some a =>
    have e : decPtr (decStruct Address.setters) Address.zero
        (Field.ofPtr tag Address.Marshal (some a)).value none =
        (decStruct Address.setters (Address.Marshal a) Address.zero).map some := rfl
    rw [e, Address_roundtrip a (h a rfl)]
    rfl

/-- A pointer to a `PaymentMethod`, written and read back into a nil pointer. -/
theorem decPtr_PaymentMethod (tag : String) (o : Option PaymentMethod)
    (h : ∀ p, o = some p → p.ValidUTF8)
    (hi : ∀ p, o = some p → IsInt64 p.ExpMonth ∧ IsInt64 p.ExpYear) :
    decPtr (decStruct PaymentMethod.setters) PaymentMethod.zero
      (Field.ofPtr tag PaymentMethod.Marshal o).value none = some o := by
  cases o with
  | none => rfl
  | some p =>
    have e : decPtr (decStruct PaymentMethod.setters) PaymentMethod.zero
        (Field.ofPtr tag PaymentMethod.Marshal (some p)).value none =
        (decStruct PaymentMethod.setters (PaymentMethod.Marshal p) PaymentMethod.zero).map
          some := rfl
    rw [e, PaymentMethod_roundtrip p (h p rfl) (hi p rfl).1 (hi p rfl).2]
    rfl

/-- C12, as the spec states it, fails: the customer whose name is the byte
`0xFF` is written with the name U+FFFD and read back with the three bytes of
U+FFFD as its name, not with the original. -/
theorem CloudCustomer_roundtrip_counterexample :
    CloudCustomer.Unmarshal (CloudCustomer.Marshal badNameCustomer) =
        some { badNameCustomer with Name := [0xEF, 0xBF, 0xBD] } ∧
      CloudCustomer.Unmarshal (CloudCustomer.Marshal badNameCustomer) ≠
        some badNameCustomer := by
  decide

/-- C12, amended: for every `CloudCustomer` whose string fields, those of its
addresses and payment method included, hold valid UTF-8 (its integer fields
holding `int` and `int64` values), decoding its JSON encoding into a new
`CloudCustomer` succeeds and gives a value equal to the original in every
field: the embedded `CloudCustomerInfo` is read back from the same object, nil
addresses and payment method come back nil, empty `Email`, `ContactFirstName`
and `ContactLastName` come back empty. -/
theorem CloudCustomer_roundtrip_utf8 (c : CloudCustomer) (hs : c.ValidUTF8)
    (hi : c.IntsInRange) :
    CloudCustomer.Unmarshal (CloudCustomer.Marshal c) = some c := by
  obtain ⟨⟨hn, he, hf, hl, hid, hcr⟩, hb, hco, hp⟩ := hs
  obtain ⟨hk, hca, hpi⟩ := hi
  obtain ⟨⟨n, e, f, l, k⟩, i, cr, ca, b, co, p⟩ := c
  simp only at hn he hf hl hid hcr hb hco hp hk hca hpi
  have rn := ofText_toText _ hn
  have re := ofText_toText _ he
  have rf := ofText_toText _ hf
  have rl := ofText_toText _ hl
  have rid := ofText_toText _ hid
  have rcr := ofText_toText _ hcr
  by_cases ee : e = [] <;> by_cases ef : f = [] <;> by_cases el : l = [] <;>
    simp [CloudCustomer.Unmarshal, CloudCustomer.Marshal, CloudCustomerInfo.fields,
      Field.ofString, Field.ofInt, Field.ofPtr_tag, Field.ofPtr_empty, encodeFields, omitEmpty,
      parseTag_customer, decStruct, decodeMembers, findSetter, CloudCustomer.setters,
      CloudCustomer.zero, decString, decInt, decPtr_Address _ _ hb, decPtr_Address _ _ hco,
      decPtr_PaymentMethod _ _ hp hpi, ee, ef, el, hk, hca, rn, re, rf, rl, rid, rcr]

theorem IsUTF8_ofText (t : String) : IsUTF8 (ofText t) := ⟨t, rfl⟩

theorem IsUTF8_nil : IsUTF8 [] := ⟨"", rfl⟩

theorem fullCustomer_ValidUTF8 : fullCustomer.ValidUTF8 := by
  refine ⟨⟨IsUTF8_ofText _, IsUTF8_ofText _, IsUTF8_ofText _, IsUTF8_nil, IsUTF8_ofText _,
    IsUTF8_ofText _⟩, ?_, ?_, ?_⟩
  · intro a h
    obtain rfl := Option.some.inj h
    exact ⟨IsUTF8_ofText _, IsUTF8_ofText _, IsUTF8_ofText _, IsUTF8_nil, IsUTF8_ofText _,
      IsUTF8_nil⟩
  · intro a h
    exact Option.noConfusion h
  · intro p h
    obtain rfl := Option.some.inj h
    exact ⟨IsUTF8_ofText _, IsUTF8_ofText _, IsUTF8_ofText _, IsUTF8_ofText _⟩

theorem fullCustomer_IntsInRange : fullCustomer.IntsInRange := by
  refine ⟨by decide, by decide, ?_⟩
  intro p h
  obtain rfl := Option.some.inj h
  exact ⟨by decide, by decide⟩

/-- Witness of C12: the customer with a billing address and a payment method,
an e-mail address and no last name. -/
theorem CloudCustomer_roundtrip_utf8_witness :
    CloudCustomer.Unmarshal (CloudCustomer.Marshal fullCustomer) = some fullCustomer :=
  CloudCustomer_roundtrip_utf8 fullCustomer fullCustomer_ValidUTF8 fullCustomer_IntsInRange

end Model
